import Mathlib

/-!
Verification of the AI Global Networks chat relay (server.js and
public/chatbot.js). Text is modelled as `List Char` for the byte/stream
level and `String` for discrete fields; JavaScript `undefined` for an
absent field is modelled with `Option`; JavaScript numbers are modelled
as `Rat`.
-/

/-- Prepends a character to the first part of a split result
(the inner step of `splitLines`). -/
def splitLinesCons (c : Char) : List (List Char) → List (List Char)
  | [] => [[c]]
  | l :: ls => (c :: l) :: ls

/-- Character-level model of JavaScript `chunk.split('\n')`:
splits a character list on every newline, keeping empty parts, so that
`"a\n".split('\n') = ["a", ""]` and `"".split('\n') = [""]`. -/
def splitLines : List Char → List (List Char)
  | [] => [[]]
  | c :: rest => if c = '\n' then [] :: splitLines rest else splitLinesCons c (splitLines rest)

/-- Joins parts back with a newline between consecutive parts
("with line breaks restored"): the inverse of `splitLines`. -/
def restoreLines : List (List Char) → List Char
  | [] => []
  | [l] => l
  | l :: ls => l ++ '\n' :: restoreLines ls

/-- The SSE marker `'data: '` the code tests with `line.startsWith('data: ')`. -/
def dataMarker : List Char := ("data: ").toList

/-- The terminal sentinel payload `'[DONE]'`. -/
def doneSentinel : List Char := ("[DONE]").toList

/-- The final frame `'data: [DONE]\n\n'` the relay writes when the
upstream reader reports `done` (server.js). -/
def doneFrame : List Char := ("data: [DONE]\n\n").toList

/-- JSON values, the result of a successful `JSON.parse`. -/
inductive Json where
  | null
  | bool (b : Bool)
  | num (q : Rat)
  | str (s : String)
  | arr (elems : List Json)
  | obj (fields : List (String × Json))

/-- Key lookup in a JSON object field list. -/
def lookupJson : List (String × Json) → String → Option Json
  | [], _ => none
  | (k, v) :: rest, key => if k = key then some v else lookupJson rest key

/-- JavaScript property access `j[key]` on a parsed JSON value:
`none` models `undefined` (missing key or non-object receiver). -/
def jGet (j : Json) (key : String) : Option Json :=
  match j with
  | .obj fields => lookupJson fields key
  | _ => none

/-- JavaScript `c[field]?.content || ''` for `c` a `choices` element:
any missing step or non-text content yields the empty string, exactly the
falsy cases `|| ''` maps to no delta. -/
def fieldContent (c : Json) (field : String) : String :=
  match jGet c field with
  | some d =>
    match jGet d ("content") with
    | some (Json.str s) => s
    | _ => ("")
  | none => ("")

/-- chatbot.js `parsed.choices[0]?.delta?.content || ''`. A `parsed`
without an array `choices` raises a TypeError in the source, which the
surrounding `try` swallows; both that and an empty content produce no
delta, so both are modelled as the empty string. -/
def deltaContent (parsed : Json) : String :=
  match jGet parsed ("choices") with
  | some (Json.arr (c :: _)) => fieldContent c ("delta")
  | _ => ("")

/-- chatbot.js streamResponse, per-line decode step. `parseJson` stands
for the host `JSON.parse` (returning `none` models a thrown SyntaxError,
which the source catches and ignores). Returns the content delta the
line yields, if any. -/
def decodeLine (parseJson : List Char → Option Json) (line : List Char) : Option String :=
  if dataMarker.isPrefixOf line then
    let data := line.drop 6
    if data = doneSentinel then none
    else
      match parseJson data with
      | none => none
      | some parsed =>
        let content := deltaContent parsed
        if content = ("") then none else some content
  else none

/-- chatbot.js streamResponse, chunk handling: each decoded chunk is
split on newline and every part is processed immediately; no residual
buffer is kept across chunks. These are all the lines the client ever
looks at for a given chunk sequence. -/
def streamResponseLines (chunks : List (List Char)) : List (List Char) :=
  chunks.flatMap splitLines

/-- server.js streaming branch, one chunk: forward every line of the
chunk that starts with `'data: '`, re-framed as `line + '\n\n'`. -/
def relayChunk (chunk : List Char) : List Char :=
  (splitLines chunk).flatMap
    (fun line => if dataMarker.isPrefixOf line then line ++ ['\n', '\n'] else [])

/-- One result of `reader.read()` in the server relay loop: a data
chunk, a clean end of stream (`done`), or a read error (the upstream
connection dropping mid-stream). -/
inductive ReadEvent where
  | chunk (c : List Char)
  | done
  | err

/-- server.js streaming branch, the `while (true)` relay loop: forward
each chunk's `data: ` lines; on `done` write `'data: [DONE]\n\n'` and
end; on a read error the catch block ends the response with nothing
further written. -/
def relayLoop : List ReadEvent → List Char
  | [] => []
  | ReadEvent.done :: _ => doneFrame
  | ReadEvent.err :: _ => []
  | ReadEvent.chunk c :: rest => relayChunk c ++ relayLoop rest

/-- The `data: `-prefixed lines of a full character stream, in order. -/
def dataLines (s : List Char) : List (List Char) :=
  (splitLines s).filter (fun l => dataMarker.isPrefixOf l)

/-- SSE framing of a list of lines: each line followed by a blank line. -/
def sseFrames (lines : List (List Char)) : List Char :=
  lines.flatMap (fun l => l ++ ['\n', '\n'])

/-- A chat message as validated by the server: `role` and `content`
are strings, with the empty string standing for a falsy/missing field. -/
structure ChatMsg where
  role : String
  content : String
deriving DecidableEq

/-- The parsed body of `POST /api/chat`. `none` models an absent
(`undefined`) field; `messages = none` also covers a non-array value. -/
structure ReqBody where
  messages : Option (List ChatMsg)
  model : Option String
  temperature : Option Rat
  max_tokens : Option Rat
  stream : Option Bool

/-- Result of `Validators.validateChatRequest`:
`{valid: true}` or `{valid: false, error}`. -/
inductive ValidationResult where
  | valid
  | invalid (error : String)
deriving DecidableEq

def missingMessagesMsg : String := "Messages array is required and cannot be empty"

def malformedMessageMsg : String := "Each message must have role and content"

def temperatureRangeMsg : String := "Temperature must be between 0 and 2"

def maxTokensRangeMsg : String := "Max tokens must be between 1 and 4096"

/-- JavaScript truthiness of a number: zero is falsy. -/
def numTruthy (q : Rat) : Bool := decide (q ≠ 0)

/-- server.js `msg => !msg.role || !msg.content`. -/
def msgFalsy (m : ChatMsg) : Bool := decide (m.role = ("")) || decide (m.content = (""))

/-- server.js `temperature && (temperature < 0 || temperature > 2)`. -/
def temperatureViolates : Option Rat → Bool
  | none => false
  | some t => numTruthy t && (decide (t < 0) || decide (t > 2))

/-- server.js `max_tokens && (max_tokens < 1 || max_tokens > 4096)`. -/
def maxTokensViolates : Option Rat → Bool
  | none => false
  | some m => numTruthy m && (decide (m < 1) || decide (m > 4096))

/-- server.js `Validators.validateChatRequest`. -/
def validateChatRequest (body : ReqBody) : ValidationResult :=
  match body.messages with
  | none => ValidationResult.invalid missingMessagesMsg
  | some messages =>
    if messages.isEmpty then ValidationResult.invalid missingMessagesMsg
    else if messages.any msgFalsy then ValidationResult.invalid malformedMessageMsg
    else if temperatureViolates body.temperature then ValidationResult.invalid temperatureRangeMsg
    else if maxTokensViolates body.max_tokens then ValidationResult.invalid maxTokensRangeMsg
    else ValidationResult.valid

/-- The environment-derived server configuration (CONFIG in server.js).
`groqApiKey = none` models an unset GROQ_API_KEY. -/
structure ChatConfig where
  groqApiKey : Option String
  nodeEnv : String

/-- JavaScript truthiness of the credential `CONFIG.GROQ_API_KEY`:
unset or empty-string values are falsy. -/
def keyTruthy : Option String → Bool
  | none => false
  | some k => decide (k ≠ (""))

/-- server.js `Validators.validateApiKey` (the logging aside). -/
def validateApiKey (cfg : ChatConfig) : Bool := keyTruthy cfg.groqApiKey

/-- The JSON body and status of `GET /api/health` (the timestamp field,
a wall-clock read, is not modelled). -/
structure HealthResponse where
  statusCode : Nat
  status : String
  environment : String
  apiConfigured : Bool
deriving DecidableEq

/-- server.js `GET /api/health` handler. -/
def healthHandler (cfg : ChatConfig) : HealthResponse :=
  let isHealthy := validateApiKey cfg
  { statusCode := if isHealthy then 200 else 503
    status := if isHealthy then ("ok") else ("degraded")
    environment := cfg.nodeEnv
    apiConfigured := keyTruthy cfg.groqApiKey }

/-- server.js COMPANY_CONTEXT, the fixed server-controlled system
prompt prepended to every upstream request. -/
def COMPANY_CONTEXT : String := "You are an AI assistant for AI Global Networks, a leading company specializing in AI automation and integration solutions.\n\nABOUT AI GLOBAL NETWORKS:\n- We help businesses automate workflows and integrate AI into their operations\n- Founded with a mission to make AI accessible and practical for all industries\n- Expert team with years of experience in AI, machine learning, and automation\n\nOUR SERVICES:\n1. Smart Automation - Automate repetitive tasks with AI\n2. AI Integrations - Connect AI with your existing tools and apps\n3. Custom AI Solutions - Personalized AI tools for your business needs\n4. 24/7 Support - Round-the-clock assistance from our expert team\n\nINDUSTRIES WE SERVE:\n- Customer Support (AI chatbots, ticket automation)\n- Healthcare (patient management, diagnosis assistance)\n- Marketing (content generation, campaign optimization)\n- Education (personalized learning, grading automation)\n- Finance (fraud detection, automated reporting)\n\nOUR APPLICATIONS:\n- Sensi Sezuire - AI-powered security monitoring\n- Block Spy - Blockchain intelligence and analytics\n- Ubizo iMarket - Smart marketplace automation\n- Woman in AI - Empowering women in technology\n- Ethical AI - Responsible AI development tools\n- 24/7 Property Hunter - Automated real estate finder\n\nSKILLS DEVELOPMENT PROGRAMS:\n- Cybersecurity training\n- Data Science bootcamps\n- Software Development courses\n- Design Thinking workshops\n\nPRICING:\n- Free tier available for small businesses\n- Professional plans starting at competitive rates\n- Enterprise solutions with custom pricing\n- No credit card required to get started\n\nWhen answering questions:\n- Be professional, friendly, and helpful\n- Reference our specific services when relevant\n- Encourage users to explore our solutions\n- Provide accurate information about AI automation\n- If unsure about specific pricing or technical details, suggest contacting our team\n- Always maintain a positive, solution-oriented tone"

/-- server.js GroqClient.sendRequest `systemMessage`. -/
def systemMessage : ChatMsg := { role := ("system"), content := COMPANY_CONTEXT }

/-- Default model in GroqClient.sendRequest destructuring. -/
def defaultModel : String := "llama-3.3-70b-versatile"

/-- Default temperature 0.7 in GroqClient.sendRequest destructuring. -/
def defaultTemperature : Rat := 7/10

/-- CONFIG.MAX_TOKENS, the default max_tokens. -/
def configMaxTokens : Rat := 2048

/-- The options object the chat handler passes to GroqClient.sendRequest;
`none` models an `undefined` field, which the destructuring defaults
replace. -/
structure SendOptions where
  model : Option String
  temperature : Option Rat
  max_tokens : Option Rat
  stream : Option Bool

/-- The JSON request body GroqClient.sendRequest posts upstream. -/
structure GroqRequest where
  model : String
  messages : List ChatMsg
  temperature : Rat
  max_tokens : Rat
  top_p : Rat
  stream : Bool

/-- server.js GroqClient.sendRequest: applies the destructuring defaults
and builds the upstream request body with the system message prepended. -/
def sendRequestBody (messages : List ChatMsg) (options : SendOptions) : GroqRequest :=
  { model := options.model.getD defaultModel
    messages := systemMessage :: messages
    temperature := options.temperature.getD defaultTemperature
    max_tokens := options.max_tokens.getD configMaxTokens
    top_p := 1
    stream := options.stream.getD false }

/-- What the upstream fetch produced: a thrown network error, or a
response with a status, `ok` flag, the result of parsing its JSON body
(`none` models a body `response.json()` rejects on), and, for streaming,
the sequence of reader events. -/
inductive UpstreamOutcome where
  | netFail
  | response (status : Nat) (ok : Bool) (jsonBody : Option Json) (events : List ReadEvent)

/-- The response `POST /api/chat` sends: a JSON error body, the
non-streaming success body, or a streamed SSE body. -/
inductive ChatHttpResponse where
  | jsonError (statusCode : Nat) (error : String)
  | jsonOk (message : String) (modelField : Option Json) (usage : Option Json)
  | sse (written : List Char)

/-- The observable effect of one `POST /api/chat` request: the response
plus the list of upstream requests dispatched while handling it. -/
structure ChatResult where
  response : ChatHttpResponse
  upstreamCalls : List GroqRequest

def configErrorMsg : String := "Server configuration error."

def unexpectedErrorMsg : String := "An unexpected error occurred. Please try again."

def aiServiceErrorMsg : String := "AI service error"

/-- server.js `errorData.error?.message || 'AI service error'`: the
upstream error body's message, with the generic fallback for a missing,
non-text, or empty (falsy) message. -/
def upstreamErrorMessage (errorData : Json) : String :=
  match jGet errorData ("error") with
  | some e =>
    match jGet e ("message") with
    | some (Json.str s) => if s = ("") then aiServiceErrorMsg else s
    | _ => aiServiceErrorMsg
  | none => aiServiceErrorMsg

/-- server.js `data.choices[0]?.message?.content || ''` in the
non-streaming branch; `none` models the TypeError thrown when `choices`
is absent, which lands in the handler's outer catch. -/
def choicesMessageContent (data : Json) : Option String :=
  match jGet data ("choices") with
  | none => none
  | some (Json.arr (c :: _)) => some (fieldContent c ("message"))
  | some _ => some ("")

/-- server.js `POST /api/chat` after dispatch: error check first, then
the streaming or non-streaming branch; thrown errors reach the outer
catch, which answers 500 with the generic message. -/
def dispatchResponse (stream : Bool) (upstream : UpstreamOutcome) : ChatHttpResponse :=
  match upstream with
  | UpstreamOutcome.netFail => ChatHttpResponse.jsonError 500 unexpectedErrorMsg
  | UpstreamOutcome.response status ok jsonBody events =>
    if !ok then
      match jsonBody with
      | some errorData => ChatHttpResponse.jsonError status (upstreamErrorMessage errorData)
      | none => ChatHttpResponse.jsonError 500 unexpectedErrorMsg
    else if stream then ChatHttpResponse.sse (relayLoop events)
    else
      match jsonBody with
      | some data =>
        match choicesMessageContent data with
        | some msg => ChatHttpResponse.jsonOk msg (jGet data ("model")) (jGet data ("usage"))
        | none => ChatHttpResponse.jsonError 500 unexpectedErrorMsg
      | none => ChatHttpResponse.jsonError 500 unexpectedErrorMsg

/-- server.js `POST /api/chat`: credential check, then validation, then
a single upstream dispatch whose outcome is the `upstream` argument. -/
def chatHandler (cfg : ChatConfig) (body : ReqBody) (upstream : UpstreamOutcome) : ChatResult :=
  if !validateApiKey cfg then
    { response := ChatHttpResponse.jsonError 500 configErrorMsg, upstreamCalls := [] }
  else
    match validateChatRequest body with
    | ValidationResult.invalid err =>
      { response := ChatHttpResponse.jsonError 400 err, upstreamCalls := [] }
    | ValidationResult.valid =>
      let stream := body.stream.getD false
      let req := sendRequestBody (body.messages.getD [])
        { model := body.model, temperature := body.temperature
          max_tokens := body.max_tokens, stream := some stream }
      { response := dispatchResponse stream upstream, upstreamCalls := [req] }

/-- Modelled from the spec: the client-side ChunkReassembler `feed`
operation (spec section 4.3), which src/public/chatbot.js does not
implement (Documentation/chatbot_grammar_fix.md describes this buffered
algorithm as the fix, but streamResponse has no buffer). Appends the
chunk to the buffer, emits all complete lines, and retains the final,
possibly incomplete, part as the new buffer. -/
def specFeed (buffer chunk : List Char) : List (List Char) × List Char :=
  let parts := splitLines (buffer ++ chunk)
  (parts.dropLast, parts.getLastD [])

/-- Modelled from the spec: running the ChunkReassembler over a chunk
sequence from a given buffer, collecting every emitted line and the
final residual buffer. -/
def specRun (buffer : List Char) : List (List Char) → List (List Char) × List Char
  | [] => ([], buffer)
  | chunk :: rest =>
    let fed := specFeed buffer chunk
    let next := specRun fed.2 rest
    (fed.1 ++ next.1, next.2)

theorem splitLines_ne_nil (s : List Char) : splitLines s ≠ [] := by
  induction s with
  | nil => simp [splitLines]
  | cons c rest ih =>
    by_cases h : c = '\n'
    · simp [splitLines, h]
    · simp only [splitLines, h, if_false]
      cases hs : splitLines rest with
      | nil => simp [splitLinesCons]
      | cons l ls => simp [splitLinesCons]

theorem restoreLines_cons_cons (c : Char) (l : List Char) (ls : List (List Char)) :
    restoreLines ((c :: l) :: ls) = c :: restoreLines (l :: ls) := by
  cases ls <;> rfl

theorem restoreLines_splitLines (s : List Char) : restoreLines (splitLines s) = s := by
  induction s with
  | nil => rfl
  | cons c rest ih =>
    by_cases h : c = '\n'
    · subst h
      have hsplit : splitLines ('\n' :: rest) = [] :: splitLines rest := by
        simp [splitLines]
      rw [hsplit]
      cases hs : splitLines rest with
      | nil => exact absurd hs (splitLines_ne_nil rest)
      | cons l ls =>
        have : restoreLines ([] :: l :: ls) = '\n' :: restoreLines (l :: ls) := rfl
        rw [this, ← hs, ih]
    · simp only [splitLines, h, if_false]
      cases hs : splitLines rest with
      | nil => exact absurd hs (splitLines_ne_nil rest)
      | cons l ls =>
        show restoreLines ((c :: l) :: ls) = c :: rest
        rw [restoreLines_cons_cons, ← hs, ih]

theorem restoreLines_append (xs ys : List (List Char)) (hxs : xs ≠ []) (hys : ys ≠ []) :
    restoreLines (xs ++ ys) = restoreLines xs ++ '\n' :: restoreLines ys := by
  induction xs with
  | nil => exact absurd rfl hxs
  | cons x xs ih =>
    cases xs with
    | nil =>
      cases ys with
      | nil => exact absurd rfl hys
      | cons y ys =>
        show restoreLines (x :: y :: ys) = x ++ '\n' :: restoreLines (y :: ys)
        rfl
    | cons x2 xs2 =>
      calc restoreLines ((x :: x2 :: xs2) ++ ys)
          = x ++ '\n' :: restoreLines ((x2 :: xs2) ++ ys) := rfl
        _ = x ++ '\n' :: (restoreLines (x2 :: xs2) ++ '\n' :: restoreLines ys) := by
            rw [ih (by simp)]
        _ = (x ++ '\n' :: restoreLines (x2 :: xs2)) ++ '\n' :: restoreLines ys := by simp
        _ = restoreLines (x :: x2 :: xs2) ++ '\n' :: restoreLines ys := rfl

theorem specRun_invariant (chunks : List (List Char)) : ∀ buffer : List Char,
    restoreLines ((specRun buffer chunks).1 ++ [(specRun buffer chunks).2]) =
      buffer ++ chunks.flatten := by
  induction chunks with
  | nil => intro buffer; simp [specRun, restoreLines]
  | cons c cs ih =>
    intro buffer
    rcases List.eq_nil_or_concat (splitLines (buffer ++ c)) with h | ⟨init, lastPart, h⟩
    · exact absurd h (splitLines_ne_nil (buffer ++ c))
    · rw [List.concat_eq_append] at h
      have hbc : buffer ++ c = restoreLines (init ++ [lastPart]) := by
        rw [← h, restoreLines_splitLines]
      have hrun : specRun buffer (c :: cs) =
          (init ++ (specRun lastPart cs).1, (specRun lastPart cs).2) := by
        simp [specRun, specFeed, h, List.dropLast_concat, List.getLastD_concat]
      rw [hrun]
      simp only [List.flatten_cons]
      cases hinit : init with
      | nil =>
        subst hinit
        have : buffer ++ c = lastPart := by
          rw [hbc]; rfl
        simp only [List.nil_append]
        rw [ih lastPart, ← this, List.append_assoc]
      | cons i0 irest =>
        rw [← hinit, List.append_assoc,
          restoreLines_append init ((specRun lastPart cs).1 ++ [(specRun lastPart cs).2])
            (by rw [hinit]; simp) (by simp),
          ih lastPart]
        have hbc2 : buffer ++ c = restoreLines init ++ '\n' :: lastPart := by
          rw [hbc, restoreLines_append init [lastPart] (by rw [hinit]; simp) (by simp)]
          rfl
        rw [show restoreLines init ++ '\n' :: (lastPart ++ cs.flatten) =
            (restoreLines init ++ '\n' :: lastPart) ++ cs.flatten by simp,
          ← hbc2, List.append_assoc]

theorem splitLines_append (a b : List Char) :
    splitLines (a ++ '\n' :: b) = splitLines a ++ splitLines b := by
  induction a with
  | nil => simp [splitLines]
  | cons c a ih =>
    by_cases h : c = '\n'
    · subst h
      have h1 : splitLines (('\n' :: a) ++ '\n' :: b) =
          [] :: splitLines (a ++ '\n' :: b) := by simp [splitLines]
      have h2 : splitLines ('\n' :: a) = [] :: splitLines a := by simp [splitLines]
      rw [h1, h2, ih, List.cons_append]
    · have h1 : splitLines ((c :: a) ++ '\n' :: b) =
          splitLinesCons c (splitLines (a ++ '\n' :: b)) := by simp [splitLines, h]
      have h2 : splitLines (c :: a) = splitLinesCons c (splitLines a) := by
        simp [splitLines, h]
      rw [h1, h2, ih]
      cases hs : splitLines a with
      | nil => exact absurd hs (splitLines_ne_nil a)
      | cons l ls => simp [splitLinesCons]

theorem dataMarker_not_prefix_nil : dataMarker.isPrefixOf ([] : List Char) = false := by decide

theorem flatMap_ite_eq_filter (p : List Char → Bool) (f : List Char → List Char)
    (ls : List (List Char)) :
    (ls.flatMap fun l => if p l then f l else []) = (ls.filter p).flatMap f := by
  induction ls with
  | nil => rfl
  | cons l ls ih =>
    by_cases h : p l = true <;> simp [List.filter_cons, h, ih]

theorem relayChunk_eq_frames (chunk : List Char) :
    relayChunk chunk = sseFrames (dataLines chunk) := by
  rw [relayChunk, dataLines, sseFrames, flatMap_ite_eq_filter]

theorem sseFrames_append (xs ys : List (List Char)) :
    sseFrames (xs ++ ys) = sseFrames xs ++ sseFrames ys := by
  simp [sseFrames]

theorem dataLines_nil : dataLines [] = [] := by
  simp [dataLines, splitLines, dataMarker_not_prefix_nil]

theorem dataLines_aligned_append (a b : List Char)
    (h : a = [] ∨ ∃ p, a = p ++ ['\n']) :
    dataLines (a ++ b) = dataLines a ++ dataLines b := by
  rcases h with rfl | ⟨p, rfl⟩
  · rw [List.nil_append, dataLines_nil, List.nil_append]
  · have hform : (p ++ ['\n']) ++ b = p ++ '\n' :: b := by simp
    have hself : p ++ ['\n'] = p ++ '\n' :: ([] : List Char) := by simp
    have hnil : splitLines ([] : List Char) = [[]] := rfl
    simp only [dataLines, hform, hself, splitLines_append, List.filter_append, hnil,
      List.filter_cons, dataMarker_not_prefix_nil, Bool.false_eq_true, if_false,
      List.filter_nil, List.append_nil]

/-- The first fragment of the split SSE frame from the repository's own
Documentation/chatbot_grammar_fix.md example: a chunk boundary falls
inside the JSON payload. -/
def splitChunkA : List Char := ("data: \x7b\"choices\":[\x7b\"delta").toList

/-- The second fragment, completing the frame and its newline. -/
def splitChunkB : List Char := ("\":\x7b\"content\":\"Hi\"\x7d\x7d]\x7d\n").toList

/-- The complete logical line the two fragments form. -/
def splitJsonLine : List Char :=
  ("data: \x7b\"choices\":[\x7b\"delta\":\x7b\"content\":\"Hi\"\x7d\x7d]\x7d").toList

/-- Claim C1: the client-side reassembly step should lose no bytes for
every chunk partition. It fails on the code: streamResponse keeps no
residual buffer, so at the documented split the emitted lines do not
restore to the fed bytes, and the complete `data: ` line is never among
the lines the client processes — while the spec's buffered
ChunkReassembler (specRun) emits exactly that line and satisfies the
restore invariant on the same input. -/
theorem c1_client_reassembly_loses_data :
    restoreLines (streamResponseLines [splitChunkA, splitChunkB]) ≠ splitChunkA ++ splitChunkB ∧
    splitJsonLine ∉ streamResponseLines [splitChunkA, splitChunkB] ∧
    (specRun [] [splitChunkA, splitChunkB]).1 = [splitJsonLine] ∧
    restoreLines ((specRun [] [splitChunkA, splitChunkB]).1 ++
        [(specRun [] [splitChunkA, splitChunkB]).2]) = splitChunkA ++ splitChunkB := by
  decide

/-- Claim C2 as amended: when the upstream reads respect line
boundaries, the relay forwards exactly the `data: `-prefixed lines of
the upstream stream, each framed with a blank line, in order, and
appends the `data: [DONE]` frame exactly on clean exhaustion; if the
upstream reader fails mid-stream the loop ends the response with the
frames forwarded so far and no terminator. Without the alignment
condition the original claim fails at a split read: the relay keeps no
residual buffer, so a `data: ` line split across reads is forwarded as
a corrupted leading fragment and its remainder dropped. -/
theorem c2_relay_forwards_data_lines (chunks : List (List Char)) :
    (∀ c ∈ chunks, c = [] ∨ ∃ p, c = p ++ ['\n']) →
    relayLoop (chunks.map ReadEvent.chunk ++ [ReadEvent.done]) =
        sseFrames (dataLines chunks.flatten) ++ doneFrame ∧
      relayLoop (chunks.map ReadEvent.chunk ++ [ReadEvent.err]) =
        sseFrames (dataLines chunks.flatten) := by
  induction chunks with
  | nil =>
    intro _
    refine ⟨?_, ?_⟩ <;> simp [relayLoop, dataLines_nil, sseFrames]
  | cons c cs ih =>
    intro hA
    have hc := hA c (by simp)
    obtain ⟨ih1, ih2⟩ := ih (fun x hx => hA x (List.mem_cons_of_mem c hx))
    have hsplit : dataLines ((c :: cs).flatten) = dataLines c ++ dataLines cs.flatten := by
      rw [List.flatten_cons]
      exact dataLines_aligned_append c cs.flatten hc
    refine ⟨?_, ?_⟩
    · show relayChunk c ++ relayLoop (cs.map ReadEvent.chunk ++ [ReadEvent.done]) = _
      rw [ih1, relayChunk_eq_frames, hsplit, sseFrames_append, List.append_assoc]
    · show relayChunk c ++ relayLoop (cs.map ReadEvent.chunk ++ [ReadEvent.err]) = _
      rw [ih2, relayChunk_eq_frames, hsplit, sseFrames_append]

/-- Witness for C2 at a concrete aligned chunk sequence containing a
non-`data: ` line. -/
theorem c2_witness :
    relayLoop ([("data: a\n").toList, ("x\ndata: b\n").toList].map ReadEvent.chunk ++
        [ReadEvent.done]) =
      sseFrames (dataLines ([("data: a\n").toList, ("x\ndata: b\n").toList].flatten)) ++
        doneFrame ∧
    relayLoop ([("data: a\n").toList, ("x\ndata: b\n").toList].map ReadEvent.chunk ++
        [ReadEvent.err]) =
      sseFrames (dataLines ([("data: a\n").toList, ("x\ndata: b\n").toList].flatten)) :=
  c2_relay_forwards_data_lines [("data: a\n").toList, ("x\ndata: b\n").toList]
    (by
      intro c hc
      simp only [List.mem_cons, List.not_mem_nil, or_false] at hc
      rcases hc with rfl | rfl
      · exact Or.inr ⟨("data: a").toList, by decide⟩
      · exact Or.inr ⟨("x\ndata: b").toList, by decide⟩)

/-- Claim C3: the client decode step yields a delta exactly when the
line carries the `data: ` marker, the payload is not the `[DONE]`
sentinel, the payload parses, and the parsed frame's
choices[0].delta.content is a non-empty text; in every other case it
yields nothing. -/
theorem c3_decode_yield_iff (parseJson : List Char → Option Json) (line : List Char)
    (d : String) :
    decodeLine parseJson line = some d ↔
      (dataMarker.isPrefixOf line = true ∧ line.drop 6 ≠ doneSentinel ∧
        ∃ parsed, parseJson (line.drop 6) = some parsed ∧
          deltaContent parsed = d ∧ d ≠ ("")) := by
  unfold decodeLine
  by_cases hp : dataMarker.isPrefixOf line
  · simp only [hp, if_true, true_and]
    by_cases hd : line.drop 6 = doneSentinel
    · simp [hd]
    · simp only [hd, if_false, ne_eq, not_false_iff, true_and]
      cases hj : parseJson (line.drop 6) with
      | none => simp
      | some parsed =>
        simp only [Option.some.injEq]
        constructor
        · intro h
          by_cases hc : deltaContent parsed = ("")
          · rw [if_pos hc] at h
            exact Option.noConfusion h
          · rw [if_neg hc] at h
            have hdc : deltaContent parsed = d := by injection h
            exact ⟨parsed, rfl, hdc, by rw [← hdc]; exact hc⟩
        · rintro ⟨p, rfl, hdc, hne⟩
          rw [hdc, if_neg hne]
  · simp [hp]

/-- A body with well-formed messages and `max_tokens: 0`. -/
def c4Body : ReqBody :=
  { messages := some [{ role := ("user"), content := ("hi") }]
    model := none, temperature := none, max_tokens := some 0, stream := none }

/-- Claim C4: the validator should return the error of the first
violated rule, rule 4 being `1 ≤ max_tokens ≤ 4096` when present. It
fails on the code: with `max_tokens: 0` present and out of range the
validator returns Valid, because the source guards the range check with
JavaScript truthiness (`max_tokens && ...`) and `0` is falsy. -/
theorem c4_zero_max_tokens_skips_rule_four :
    validateChatRequest c4Body = ValidationResult.valid ∧
    c4Body.max_tokens = some 0 ∧ ¬ ((1 : Rat) ≤ 0 ∧ (0 : Rat) ≤ 4096) := by
  decide

/-- A body with well-formed messages and out-of-range `temperature: 3`. -/
def c5TemperatureBody : ReqBody :=
  { messages := some [{ role := ("user"), content := ("hello") }]
    model := none, temperature := some 3, max_tokens := none, stream := none }

/-- A body with well-formed messages and `max_tokens: 0`, exercising the
range rule of claim C5. -/
def c5MaxTokensBody : ReqBody :=
  { messages := some [{ role := ("user"), content := ("hello") }]
    model := none, temperature := none, max_tokens := some 0, stream := none }

/-- Claim C5: a present out-of-range temperature is rejected as stated,
but the claim fails for `max_tokens: 0`: the code accepts it (truthiness
presence check), while the claim and the repository's API documentation
require `1 ≤ max_tokens ≤ 4096` to be enforced whenever present. -/
theorem c5_range_rules_miss_zero :
    validateChatRequest c5TemperatureBody = ValidationResult.invalid temperatureRangeMsg ∧
    validateChatRequest c5MaxTokensBody = ValidationResult.valid ∧
    ¬ ((1 : Rat) ≤ 0) := by
  decide

/-- Claim C6: a request body that fails validation is answered 400 with
the violation message and dispatches no upstream call. -/
theorem c6_validation_failure_no_upstream (cfg : ChatConfig) (body : ReqBody)
    (upstream : UpstreamOutcome) (e : String)
    (hKey : validateApiKey cfg = true)
    (hVal : validateChatRequest body = ValidationResult.invalid e) :
    chatHandler cfg body upstream =
      { response := ChatHttpResponse.jsonError 400 e, upstreamCalls := [] } := by
  simp [chatHandler, hKey, hVal]

/-- A configuration with a credential set. -/
def cfgConfigured : ChatConfig := { groqApiKey := some ("test-key"), nodeEnv := ("development") }

/-- A configuration with no credential. -/
def cfgMissing : ChatConfig := { groqApiKey := none, nodeEnv := ("development") }

/-- The claim's `messages: []` body. -/
def emptyMessagesBody : ReqBody :=
  { messages := some [], model := none, temperature := none, max_tokens := none, stream := none }

/-- Witness for C6: `messages: []` yields the MissingMessages error with
zero upstream calls. -/
theorem c6_witness :
    chatHandler cfgConfigured emptyMessagesBody UpstreamOutcome.netFail =
      { response := ChatHttpResponse.jsonError 400 missingMessagesMsg, upstreamCalls := [] } :=
  c6_validation_failure_no_upstream cfgConfigured emptyMessagesBody UpstreamOutcome.netFail
    missingMessagesMsg rfl rfl

/-- Claim C7: without a credential, POST /api/chat answers 500 with the
configuration-error message and makes no upstream call, and the health
endpoint answers 503 degraded with apiConfigured false; with a
credential, the health endpoint answers 200 ok with apiConfigured true. -/
theorem c7_credential_gating (cfg : ChatConfig) (body : ReqBody) (upstream : UpstreamOutcome) :
    (validateApiKey cfg = false →
      chatHandler cfg body upstream =
          { response := ChatHttpResponse.jsonError 500 configErrorMsg, upstreamCalls := [] } ∧
        healthHandler cfg =
          { statusCode := 503, status := ("degraded"), environment := cfg.nodeEnv
            apiConfigured := false }) ∧
    (validateApiKey cfg = true →
      healthHandler cfg =
        { statusCode := 200, status := ("ok"), environment := cfg.nodeEnv
          apiConfigured := true }) := by
  constructor
  · intro h
    have hk : keyTruthy cfg.groqApiKey = false := h
    exact ⟨by simp [chatHandler, h], by simp [healthHandler, validateApiKey, hk]⟩
  · intro h
    have hk : keyTruthy cfg.groqApiKey = true := h
    simp [healthHandler, validateApiKey, hk]

/-- Witness for C7 at a missing and at a configured credential. -/
theorem c7_witness :
    chatHandler cfgMissing emptyMessagesBody UpstreamOutcome.netFail =
      { response := ChatHttpResponse.jsonError 500 configErrorMsg, upstreamCalls := [] } ∧
    healthHandler cfgMissing =
      { statusCode := 503, status := ("degraded"), environment := ("development")
        apiConfigured := false } ∧
    healthHandler cfgConfigured =
      { statusCode := 200, status := ("ok"), environment := ("development")
        apiConfigured := true } :=
  ⟨((c7_credential_gating cfgMissing emptyMessagesBody UpstreamOutcome.netFail).1 rfl).1,
   ((c7_credential_gating cfgMissing emptyMessagesBody UpstreamOutcome.netFail).1 rfl).2,
   (c7_credential_gating cfgConfigured emptyMessagesBody UpstreamOutcome.netFail).2 rfl⟩

/-- Claim C8: every request dispatched upstream carries the fixed
server-controlled system message first, followed by the caller's
messages in their original order; the prepended message is the constant
systemMessage regardless of the request body. -/
theorem c8_system_message_prepended (cfg : ChatConfig) (body : ReqBody)
    (upstream : UpstreamOutcome) (req : GroqRequest)
    (hreq : req ∈ (chatHandler cfg body upstream).upstreamCalls) :
    req.messages = systemMessage :: body.messages.getD [] ∧
    req.messages.head? = some systemMessage ∧
    systemMessage = { role := ("system"), content := COMPANY_CONTEXT } := by
  unfold chatHandler at hreq
  by_cases hk : validateApiKey cfg
  · rw [hk] at hreq
    simp only [Bool.not_true, Bool.false_eq_true, if_false] at hreq
    cases hv : validateChatRequest body with
    | invalid e =>
      rw [hv] at hreq
      simp at hreq
    | valid =>
      rw [hv] at hreq
      simp only [List.mem_singleton] at hreq
      subst hreq
      exact ⟨rfl, rfl, rfl⟩
  · rw [Bool.not_eq_true] at hk
    rw [hk] at hreq
    simp at hreq

/-- A well-formed request body carrying one user message. -/
def validBody : ReqBody :=
  { messages := some [{ role := ("user"), content := ("hello") }]
    model := none, temperature := none, max_tokens := none, stream := none }

/-- The upstream request the handler builds for validBody. -/
def validBodyReq : GroqRequest :=
  sendRequestBody [{ role := ("user"), content := ("hello") }]
    { model := none, temperature := none, max_tokens := none, stream := some false }

/-- Witness for C8 at a concrete dispatched request. -/
theorem c8_witness :
    validBodyReq.messages = systemMessage :: validBody.messages.getD [] ∧
    validBodyReq.messages.head? = some systemMessage ∧
    systemMessage = { role := ("system"), content := COMPANY_CONTEXT } :=
  c8_system_message_prepended cfgConfigured validBody UpstreamOutcome.netFail validBodyReq
    (List.Mem.head _)

/-- Claim C9: when the upstream answers a non-success status whose error
body parses, the relay preserves the upstream status code and surfaces
the parsed body's error message, falling back to the generic string when
the structured message is absent. -/
theorem c9_upstream_error_forwarded (cfg : ChatConfig) (body : ReqBody) (st : Nat)
    (errorData : Json) (events : List ReadEvent)
    (hKey : validateApiKey cfg = true)
    (hVal : validateChatRequest body = ValidationResult.valid) :
    (chatHandler cfg body (UpstreamOutcome.response st false (some errorData) events)).response =
        ChatHttpResponse.jsonError st (upstreamErrorMessage errorData) ∧
    (jGet errorData ("error") = none → upstreamErrorMessage errorData = aiServiceErrorMsg) ∧
    (∀ e m, jGet errorData ("error") = some e → jGet e ("message") = some (Json.str m) →
      m ≠ ("") → upstreamErrorMessage errorData = m) := by
  refine ⟨?_, ?_, ?_⟩
  · simp [chatHandler, hKey, hVal, dispatchResponse]
  · intro h
    simp [upstreamErrorMessage, h]
  · intro e m h1 h2 h3
    simp [upstreamErrorMessage, h1, h2, h3]

/-- A structured upstream error body. -/
def rateLimitJson : Json :=
  Json.obj [(("error"), Json.obj [(("message"), Json.str ("Rate limit reached"))])]

/-- Witness for C9: a 429 with a structured message is forwarded with
status and message preserved. -/
theorem c9_witness :
    (chatHandler cfgConfigured validBody
        (UpstreamOutcome.response 429 false (some rateLimitJson) [])).response =
      ChatHttpResponse.jsonError 429 ("Rate limit reached") := by
  have h := c9_upstream_error_forwarded cfgConfigured validBody 429 rateLimitJson [] rfl rfl
  have hm := h.2.2 (Json.obj [(("message"), Json.str ("Rate limit reached"))])
    ("Rate limit reached") rfl rfl (by decide)
  rw [h.1, hm]

/-- Claim C10: the upstream dispatch fills in the destructuring defaults
for every absent option and passes every supplied option through
unchanged. -/
theorem c10_defaults_and_passthrough (messages : List ChatMsg) (options : SendOptions) :
    ((options.model = none → (sendRequestBody messages options).model = defaultModel) ∧
      (∀ v, options.model = some v → (sendRequestBody messages options).model = v)) ∧
    ((options.temperature = none →
        (sendRequestBody messages options).temperature = defaultTemperature) ∧
      (∀ v, options.temperature = some v →
        (sendRequestBody messages options).temperature = v)) ∧
    ((options.max_tokens = none →
        (sendRequestBody messages options).max_tokens = configMaxTokens) ∧
      (∀ v, options.max_tokens = some v → (sendRequestBody messages options).max_tokens = v)) ∧
    ((options.stream = none → (sendRequestBody messages options).stream = false) ∧
      (∀ v, options.stream = some v → (sendRequestBody messages options).stream = v)) := by
  refine ⟨⟨?_, ?_⟩, ⟨?_, ?_⟩, ⟨?_, ?_⟩, ⟨?_, ?_⟩⟩
  · intro h; simp [sendRequestBody, h]
  · intro v h; simp [sendRequestBody, h]
  · intro h; simp [sendRequestBody, h]
  · intro v h; simp [sendRequestBody, h]
  · intro h; simp [sendRequestBody, h]
  · intro v h; simp [sendRequestBody, h]
  · intro h; simp [sendRequestBody, h]
  · intro v h; simp [sendRequestBody, h]

/-- Options with every field absent. -/
def allNoneOptions : SendOptions :=
  { model := none, temperature := none, max_tokens := none, stream := none }

/-- Options with every field supplied. -/
def allSomeOptions : SendOptions :=
  { model := some ("llama-3.1-8b-instant"), temperature := some 1, max_tokens := some 100
    stream := some true }

/-- Witness for C10: defaults at absent options, passthrough at supplied
ones. -/
theorem c10_witness :
    (sendRequestBody [] allNoneOptions).model = defaultModel ∧
    (sendRequestBody [] allNoneOptions).temperature = defaultTemperature ∧
    (sendRequestBody [] allNoneOptions).max_tokens = configMaxTokens ∧
    (sendRequestBody [] allNoneOptions).stream = false ∧
    (sendRequestBody [] allSomeOptions).model = ("llama-3.1-8b-instant") ∧
    (sendRequestBody [] allSomeOptions).temperature = 1 ∧
    (sendRequestBody [] allSomeOptions).max_tokens = 100 ∧
    (sendRequestBody [] allSomeOptions).stream = true := by
  have h1 := c10_defaults_and_passthrough [] allNoneOptions
  have h2 := c10_defaults_and_passthrough [] allSomeOptions
  exact ⟨h1.1.1 rfl, h1.2.1.1 rfl, h1.2.2.1.1 rfl, h1.2.2.2.1 rfl,
    h2.1.2 ("llama-3.1-8b-instant") rfl, h2.2.1.2 1 rfl, h2.2.2.1.2 100 rfl,
    h2.2.2.2.2 true rfl⟩

/-- A parsed frame carrying choices[0].delta.content = "Hi". -/
def hiFrameJson : Json :=
  Json.obj [(("choices"),
    Json.arr [Json.obj [(("delta"), Json.obj [(("content"), Json.str ("Hi"))])]])]

/-- A parse function returning the concrete frame, standing for
JSON.parse on its payload. -/
def constParse : List Char → Option Json := fun _ => some hiFrameJson

/-- Witness for C3: a marked line whose payload parses to a frame with
non-empty content yields exactly that delta. -/
theorem c3_witness : decodeLine constParse (("data: x").toList) = some ("Hi") :=
  (c3_decode_yield_iff constParse (("data: x").toList) ("Hi")).mpr
    ⟨by decide, by decide, hiFrameJson, rfl, rfl, by decide⟩

/-- An upstream read that ends inside a `data: ` line. -/
def fragChunkA : List Char := ("data: \x7b\"c\":\"Hi").toList

/-- The next read, carrying the rest of that line and its newline. -/
def fragChunkB : List Char := ("\"\x7d\n").toList

/-- Counterexample to claim C2 as stated, at a read boundary that
splits a `data: ` line: the relay does not forward the upstream line
`data: \x7b"c":"Hi"\x7d` as a correctly framed event — it emits the
corrupted leading fragment as a complete frame and drops the remainder,
so the output differs from the correctly framed forwarding of the
stream's `data: ` lines. -/
theorem c2_counterexample :
    relayLoop ([fragChunkA, fragChunkB].map ReadEvent.chunk ++ [ReadEvent.done]) ≠
      sseFrames (dataLines ([fragChunkA, fragChunkB].flatten)) ++ doneFrame ∧
    relayLoop ([fragChunkA, fragChunkB].map ReadEvent.chunk ++ [ReadEvent.done]) =
      fragChunkA ++ ('\n' :: '\n' :: doneFrame) := by
  decide
